import Mathlib

/-!
# opr-paas-webservice: handle cache, request handlers and CSP header

A shallow embedding of

* `internal/cryptmgr/cryptmgr.go` (`Manager`, `NewManager`, `get`, `reset`, `GetOrCreate`),
* `internal/handler/handlers.go` (`V1Encrypt`, `V1CheckPaas`),
* `internal/server/router.go` (`buildCSP`),

with the collaborators that live outside these files taken as parameters:

* `crypt.NewCryptFromFiles` (the handle factory), `(*crypt.Crypt).Encrypt`,
  `(*crypt.Crypt).Decrypt`, `ssh.ParsePrivateKey`;
* the value reported by `(*utils.FileWatcher).WasTriggered()` during a call.

A value of the type variable `Crypt` stands for a non-nil `*crypt.Crypt`; a nilable
pointer is an `Option Crypt`.  The factory returns a non-nil pointer whenever its error
is nil, so its result is an `Except String Crypt` (the string is the text of the error).
-/

namespace PaasWebservice

/-! ## internal/config -/

/-- The two fields of `config.WsConfig` that the manager reads. -/
structure WsConfig where
  PrivateKeyPath : String
  PublicKeyPath : String
  deriving DecidableEq, Repr

/-! ## internal/utils -/

/-- The value built by `utils.NewFileWatcher(privateKeyPath, publicKeyPath)`: the manager only
stores it and asks it `WasTriggered()`, whose answer is an input of the model. -/
structure FileWatcher where
  privateKeyPath : String
  publicKeyPath : String
  deriving DecidableEq, Repr

/-- Go's `utils.NewFileWatcher`. -/
def NewFileWatcher (privateKeyPath publicKeyPath : String) : FileWatcher :=
  { privateKeyPath := privateKeyPath, publicKeyPath := publicKeyPath }

/-! ## Go maps with string keys -/

/-- A Go `map[string]V`: an association list, looked up from the front. -/
abbrev GoMap (V : Type) := List (String × V)

/-- The expression `m[k]` for a map of pointers: `none` is the nil of a missing key. -/
def GoMap.index {V : Type} (m : GoMap V) (k : String) : Option V :=
  m.lookup k

/-- The statement `m[k] = v`: the binding of `k` is replaced. -/
def GoMap.assign {V : Type} (m : GoMap V) (k : String) (v : V) : GoMap V :=
  (k, v) :: m.filter (fun e => e.1 != k)

/-- The expression `len(m)`. -/
def GoMap.len {V : Type} (m : GoMap V) : Nat :=
  m.length

/-! ## internal/cryptmgr -/

/-- The arguments of one call `crypt.NewCryptFromFiles(privateKeyPaths, publicKeyPath,
encryptionContext)`. -/
structure FactoryCall where
  privateKeyPaths : List String
  publicKeyPath : String
  encryptionContext : String
  deriving DecidableEq, Repr

/-- The handle factory as seen during one call of `GetOrCreate`: the handle or the error it
gives for the arguments it is called with. -/
abbrev Factory (Crypt : Type) := FactoryCall → Except String Crypt

/-- The struct `cryptmgr.Manager` (the mutex has no sequential content). -/
structure Manager (Crypt : Type) where
  cache : GoMap Crypt
  fw : Option FileWatcher
  cfg : WsConfig

/-- The constructor `NewManager`: an empty cache, no watcher yet. -/
def NewManager {Crypt : Type} (cfg : WsConfig) : Manager Crypt :=
  { cache := [], fw := none, cfg := cfg }

/-- The method `Manager.get`: `m.cache[paas]`. -/
def Manager.get {Crypt : Type} (m : Manager Crypt) (paas : String) : Option Crypt :=
  m.cache.index paas

/-- The method `Manager.reset`: `m.cache = make(map[string]*crypt.Crypt)`. -/
def Manager.reset {Crypt : Type} (m : Manager Crypt) : Manager Crypt :=
  { m with cache := [] }

/-- How a call of `GetOrCreate` ends: it returns a handle, or it panics with an error. -/
inductive Ret (Crypt : Type) where
  | value (c : Crypt)
  | panic (msg : String)
  deriving DecidableEq, Repr

/-- What one call of `GetOrCreate` leaves behind: the manager afterwards, the factory calls
it made (in order), and how it ended. -/
structure Outcome (Crypt : Type) where
  mgr : Manager Crypt
  built : List FactoryCall
  ret : Ret Crypt

/-- The method `Manager.GetOrCreate`.  `newCryptFromFiles` is the factory during this call and
`wasTriggered` is what `m.fw.WasTriggered()` answers in it. -/
def Manager.GetOrCreate {Crypt : Type} (newCryptFromFiles : Factory Crypt)
    (wasTriggered : Bool) (m : Manager Crypt) (paasName : String) : Outcome Crypt :=
  -- if m.fw == nil { m.fw = utils.NewFileWatcher(m.cfg.PrivateKeyPath, m.cfg.PublicKeyPath) }
  let m₁ : Manager Crypt :=
    match m.fw with
    | none => { m with fw := some (NewFileWatcher m.cfg.PrivateKeyPath m.cfg.PublicKeyPath) }
    | some _ => m
  -- if m.fw.WasTriggered() || len(m.cache) == 0 { m.reset() }
  let m₂ : Manager Crypt :=
    if wasTriggered || m₁.cache.len == 0 then m₁.reset else m₁
  -- if c := m.get(paasName); c != nil { return c }
  match m₂.get paasName with
  | some c => { mgr := m₂, built := [], ret := Ret.value c }
  | none =>
    -- c, err := crypt.NewCryptFromFiles(
    --   []string{m.cfg.PrivateKeyPath}, m.cfg.PublicKeyPath, paasName)
    let call : FactoryCall :=
      { privateKeyPaths := [m₂.cfg.PrivateKeyPath]
        publicKeyPath := m₂.cfg.PublicKeyPath
        encryptionContext := paasName }
    match newCryptFromFiles call with
    | Except.error err =>
      -- panic(fmt.Errorf("unable to create a crypt: %w", err))
      { mgr := m₂, built := [call], ret := Ret.panic ("unable to create a crypt: " ++ err) }
    | Except.ok c =>
      -- m.cache[paasName] = c; return c
      { mgr := { m₂ with cache := m₂.cache.assign paasName c }, built := [call],
        ret := Ret.value c }

/-- The arguments with which `GetOrCreate(paasName)` calls the factory:
`[]string{m.cfg.PrivateKeyPath}, m.cfg.PublicKeyPath, paasName`. -/
def Manager.factoryCall {Crypt : Type} (m : Manager Crypt) (paasName : String) : FactoryCall :=
  { privateKeyPaths := [m.cfg.PrivateKeyPath]
    publicKeyPath := m.cfg.PublicKeyPath
    encryptionContext := paasName }

/-! ## Go strings -/

/-- The struct `v1alpha1.PaasCapability`: the enabled flag and the capability's own secrets. -/
structure PaasCapability where
  Enabled : Bool
  SSHSecrets : GoMap String
  deriving DecidableEq, Repr

/-- The struct `v1alpha1.Paas`, as far as the service reads it: the name, the top-level
secrets and the capabilities by name.  The maps are listed in the order in which they are
traversed. -/
structure Paas where
  Name : String
  SSHSecrets : GoMap String
  Capabilities : GoMap PaasCapability
  deriving DecidableEq, Repr

/-- The struct `apiv1.RestEncryptInput`. -/
structure RestEncryptInput where
  PaasName : String
  Secret : String
  deriving DecidableEq, Repr

/-- The struct `apiv1.RestEncryptResult`. -/
structure RestEncryptResult where
  PaasName : String := ""
  Encrypted : String := ""
  Valid : Bool := false
  deriving DecidableEq, Repr

/-- Where in the bundle a secret sits: at the top level, or in the named capability. -/
structure SecretPosition where
  capability : Option String
  secret : String
  deriving DecidableEq, Repr

/-- The error of a failed bundle check: the first secret that failed and why. -/
structure ValidationError where
  position : SecretPosition
  cause : String
  deriving DecidableEq, Repr

/-- Modelled from the spec: the traversal of one mapping of named secrets by the bundle
validator (`internal/services/services.go` is not among the sources): the secrets are tried in
order and the first one that fails to decrypt ends the traversal with its error. -/
def checkSecrets {Crypt : Type} (decrypt : Crypt → String → Except String String) (c : Crypt)
    (capability : Option String) : GoMap String → Except ValidationError Unit
  | [] => Except.ok ()
  | (name, secret) :: rest =>
    match decrypt c secret with
    | Except.error err =>
      Except.error { position := { capability := capability, secret := name }, cause := err }
    | Except.ok _ => checkSecrets decrypt c capability rest

/-- Modelled from the spec: the traversal of the capabilities by the bundle validator: each
capability's secrets are checked in turn, whatever its enabled flag. -/
def checkCapabilities {Crypt : Type} (decrypt : Crypt → String → Except String String)
    (c : Crypt) : GoMap PaasCapability → Except ValidationError Unit
  | [] => Except.ok ()
  | (name, capability) :: rest =>
    match checkSecrets decrypt c (some name) capability.SSHSecrets with
    | Except.error err => Except.error err
    | Except.ok _ => checkCapabilities decrypt c rest

/-- Modelled from the spec: `services.CheckPaas`, the bundle validator
(`internal/services/services.go` is not among the sources, only its test is): top-level
secrets first, then each capability's secrets, stopping at the first secret that does not
decrypt under the handle. -/
def CheckPaas {Crypt : Type} (decrypt : Crypt → String → Except String String) (c : Crypt)
    (paas : Paas) : Except ValidationError Unit :=
  match checkSecrets decrypt c none paas.SSHSecrets with
  | Except.error err => Except.error err
  | Except.ok _ => checkCapabilities decrypt c paas.Capabilities

/-- The secret decrypts under the handle. -/
def Decrypts {Crypt : Type} (decrypt : Crypt → String → Except String String) (c : Crypt)
    (secret : String) : Prop :=
  ∃ plain, decrypt c secret = Except.ok plain

/-- The repository name used by `TestCheckPaas`. -/
def repoName : String := "ssh://git@scm/some-repo.git"

/-- A stand-in for `Decrypt` in the setting of `TestCheckPaas`: "E" is the ciphertext of the
test string, nothing else decrypts. -/
def testDecrypt (_ : Nat) (secret : String) : Except String String :=
  if secret = "E" then Except.ok "My test string"
  else Except.error "unable to decrypt data with any of the private keys"

/-- The bundle `partialToBeDecryptedPaas` of `TestCheckPaas`: the top-level secret decrypts,
the secret of capability "sso" does not. -/
def partialToBeDecryptedPaas : Paas :=
  { Name := "paasName"
    SSHSecrets := [(repoName, "E")]
    Capabilities :=
      [("sso", { Enabled := true, SSHSecrets := [(repoName, "bm90RGVjcnlwdGFibGU=")] })] }

/-! ## internal/handler -/

/-- The constant `http.StatusOK`. -/
def StatusOK : Nat := 200

/-- The constant `http.StatusBadRequest`. -/
def StatusBadRequest : Nat := 400

/-- What a handler does with the gin context before it ends. -/
inductive Reply (Body : Type) where
  /-- The call `c.IndentedJSON(status, body)`. -/
  | json (status : Nat) (body : Body)
  /-- The call `c.AbortWithStatus(status)`. -/
  | abort (status : Nat)
  /-- The handler returns without writing a response of its own. -/
  | silent
  /-- The handler does not return: `GetOrCreate` panicked. -/
  | panic (msg : String)
  deriving DecidableEq, Repr

/-- The struct `handlers.Handler`. -/
structure Handler (Crypt : Type) where
  CryptMgr : Manager Crypt

/-- The constructor `NewHandler`. -/
def NewHandler {Crypt : Type} (cryptMgr : Manager Crypt) : Handler Crypt :=
  { CryptMgr := cryptMgr }

/-- What one request leaves behind: the handler afterwards, the identities for which it
called `GetOrCreate`, the factory calls made, and the reply. -/
structure Handled (Crypt Body : Type) where
  handler : Handler Crypt
  asked : List String
  built : List FactoryCall
  reply : Reply Body

/-- The handler `Handler.V1Encrypt`.  `bound` is the result of `c.BindJSON(&input)`, which
on failure aborts the request with status 400 itself (`c.AbortWithError`);
`parsePrivateKey secret` says whether `ssh.ParsePrivateKey(secret)` gives no error, and
`encrypt` is `(*crypt.Crypt).Encrypt`. -/
def Handler.V1Encrypt {Crypt : Type} (parsePrivateKey : String → Bool)
    (encrypt : Crypt → String → Except String String)
    (newCryptFromFiles : Factory Crypt) (wasTriggered : Bool)
    (h : Handler Crypt) (bound : Except String RestEncryptInput) :
    Handled Crypt RestEncryptResult :=
  match bound with
  | Except.error _ =>
    -- c.BindJSON has aborted the request with 400; the handler returns
    { handler := h, asked := [], built := [], reply := Reply.abort StatusBadRequest }
  | Except.ok input =>
    let secret := input.Secret
    if parsePrivateKey secret then
      let got := h.CryptMgr.GetOrCreate newCryptFromFiles wasTriggered input.PaasName
      match got.ret with
      | Ret.panic msg =>
        { handler := { CryptMgr := got.mgr }, asked := [input.PaasName], built := got.built,
          reply := Reply.panic msg }
      | Ret.value rsa =>
        match encrypt rsa secret with
        | Except.error _ =>
          { handler := { CryptMgr := got.mgr }, asked := [input.PaasName], built := got.built,
            reply := Reply.silent }
        | Except.ok encrypted =>
          { handler := { CryptMgr := got.mgr }, asked := [input.PaasName], built := got.built,
            reply := Reply.json StatusOK
              { PaasName := input.PaasName, Encrypted := encrypted, Valid := true } }
    else
      { handler := h, asked := [], built := [],
        reply := Reply.json StatusOK { PaasName := input.PaasName, Valid := false } }

/-- The function `buildCSP`: the Content-Security-Policy header value. -/
def buildCSP (externalHosts : String) : String :=
  let defaultSrc := "default-src 'none'"
  let scriptSrc := "script-src 'self'"
  let styleSrc := "style-src 'self'"
  let imgSrc := "img-src 'self'"
  let connectSrc := "connect-src 'self'"
  let fontSrc := "font-src 'self'"
  let objectSrc := "object-src 'none'"
  let toAppend := " " ++ externalHosts
  let scriptSrc := if externalHosts != "" then scriptSrc ++ toAppend else scriptSrc
  let styleSrc := if externalHosts != "" then styleSrc ++ toAppend else styleSrc
  let imgSrc := if externalHosts != "" then imgSrc ++ toAppend else imgSrc
  let connectSrc := if externalHosts != "" then connectSrc ++ toAppend else connectSrc
  let fontSrc := if externalHosts != "" then fontSrc ++ toAppend else fontSrc
  -- fmt.Sprintf("%s; %s; %s; %s; %s; %s; %s", ...)
  defaultSrc ++ "; " ++ scriptSrc ++ "; " ++ styleSrc ++ "; " ++ imgSrc ++ "; " ++
    connectSrc ++ "; " ++ fontSrc ++ "; " ++ objectSrc

/-! ## Concurrent calls of `GetOrCreate`

Goroutines that run `GetOrCreate` for one and the same identity, interleaved at the
granularity of the accesses to the manager: each read or write of `m.fw`, each call of
`WasTriggered`, the read of `len(m.cache)`, and each of the three locked sections (`reset`,
`get`, the final assignment) is one step. -/

/-- The point a goroutine has reached in `GetOrCreate`. -/
inductive Goroutine (Crypt : Type) where
  /-- Before `if m.fw == nil`. -/
  | fwCheck
  /-- Saw `m.fw` nil; before `m.fw = utils.NewFileWatcher(...)`. -/
  | fwStart
  /-- Before `m.fw.WasTriggered()`. -/
  | poll
  /-- Got false from `WasTriggered()`; before `len(m.cache) == 0`. -/
  | lenCheck
  /-- The condition held; before `m.reset()`. -/
  | doReset
  /-- Before `m.get(paasName)`. -/
  | doGet
  /-- Got nil from `get`; before `crypt.NewCryptFromFiles(...)`. -/
  | build
  /-- The factory gave `c`; before the locked `m.cache[paasName] = c`. -/
  | store (c : Crypt)
  /-- The call has returned or panicked. -/
  | done (r : Ret Crypt)
  deriving DecidableEq, Repr

/-- The collaborators over a whole run: what the factory gives at its `k`-th invocation and
what `WasTriggered()` answers at its `k`-th call (both counted from 0). -/
structure Env (Crypt : Type) where
  newCryptFromFiles : Nat → Factory Crypt
  wasTriggered : Nat → Bool

/-- The manager shared by the goroutines, the factory calls made so far, the number of
`WasTriggered()` calls made so far, and where each goroutine stands. -/
structure Service (Crypt : Type) where
  mgr : Manager Crypt
  built : List FactoryCall
  polls : Nat
  routines : Nat → Goroutine Crypt

/-- Goroutine `i` moves to `g`. -/
def Service.goto {Crypt : Type} (s : Service Crypt) (i : Nat) (g : Goroutine Crypt) :
    Service Crypt :=
  { s with routines := fun j => if j = i then g else s.routines j }

/-- One step of goroutine `i`, which runs `GetOrCreate(paasName)`. -/
def Service.step {Crypt : Type} (env : Env Crypt) (paasName : String) (s : Service Crypt)
    (i : Nat) : Service Crypt :=
  match s.routines i with
  | Goroutine.fwCheck =>
    match s.mgr.fw with
    | none => s.goto i Goroutine.fwStart
    | some _ => s.goto i Goroutine.poll
  | Goroutine.fwStart =>
    { s with
      mgr := { s.mgr with
        fw := some (NewFileWatcher s.mgr.cfg.PrivateKeyPath s.mgr.cfg.PublicKeyPath) } }.goto
      i Goroutine.poll
  | Goroutine.poll =>
    { s with polls := s.polls + 1 }.goto i
      (if env.wasTriggered s.polls then Goroutine.doReset else Goroutine.lenCheck)
  | Goroutine.lenCheck =>
    s.goto i (if s.mgr.cache.len == 0 then Goroutine.doReset else Goroutine.doGet)
  | Goroutine.doReset =>
    { s with mgr := s.mgr.reset }.goto i Goroutine.doGet
  | Goroutine.doGet =>
    match s.mgr.get paasName with
    | some c => s.goto i (Goroutine.done (Ret.value c))
    | none => s.goto i Goroutine.build
  | Goroutine.build =>
    let call := s.mgr.factoryCall paasName
    match env.newCryptFromFiles s.built.length call with
    | Except.error err =>
      { s with built := s.built ++ [call] }.goto i
        (Goroutine.done (Ret.panic ("unable to create a crypt: " ++ err)))
    | Except.ok c =>
      { s with built := s.built ++ [call] }.goto i (Goroutine.store c)
  | Goroutine.store c =>
    { s with mgr := { s.mgr with cache := s.mgr.cache.assign paasName c } }.goto i
      (Goroutine.done (Ret.value c))
  | Goroutine.done _ => s

/-- The goroutines take steps in the order of the schedule. -/
def Service.run {Crypt : Type} (env : Env Crypt) (paasName : String) (s : Service Crypt)
    (schedule : List Nat) : Service Crypt :=
  schedule.foldl (Service.step env paasName) s

/-- Every goroutine is about to enter `GetOrCreate` on manager `m`. -/
def Service.start {Crypt : Type} (m : Manager Crypt) : Service Crypt :=
  { mgr := m, built := [], polls := 0, routines := fun _ => Goroutine.fwCheck }

/-- The call of the goroutine is over. -/
def Goroutine.finished {Crypt : Type} : Goroutine Crypt → Bool
  | Goroutine.done _ => true
  | _ => false

/-- An upper bound on the steps a goroutine still has to take. -/
def Goroutine.remaining {Crypt : Type} : Goroutine Crypt → Nat
  | Goroutine.fwCheck => 8
  | Goroutine.fwStart => 7
  | Goroutine.poll => 6
  | Goroutine.lenCheck => 5
  | Goroutine.doReset => 4
  | Goroutine.doGet => 3
  | Goroutine.build => 2
  | Goroutine.store _ => 1
  | Goroutine.done _ => 0

/-- The goroutine is past the lookup: it will not look into the cache again. -/
def Goroutine.past {Crypt : Type} : Goroutine Crypt → Nat
  | Goroutine.store _ => 1
  | Goroutine.done _ => 1
  | _ => 0

/-- Handle `c` was given by one of the factory invocations recorded in `built`, called with
the arguments `call`. -/
def Produced {Crypt : Type} (env : Env Crypt) (call : FactoryCall) (built : List FactoryCall)
    (c : Crypt) : Prop :=
  ∃ k, k < built.length ∧ built[k]? = some call ∧
    env.newCryptFromFiles k call = Except.ok c

/-- What holds of every state reached by goroutines `0, ..., N-1` that call `GetOrCreate(id)`
on a manager that had no entry for `id`: the factory arguments are fixed, every handle found
under `id`, about to be stored or returned was given by a recorded factory invocation, and
there are at most as many invocations as goroutines that are past the lookup. -/
structure Service.Inv {Crypt : Type} (env : Env Crypt) (call : FactoryCall) (id : String)
    (N : Nat) (s : Service Crypt) : Prop where
  call_eq : s.mgr.factoryCall id = call
  cached : ∀ c, s.mgr.get id = some c → Produced env call s.built c
  stored : ∀ i c, s.routines i = Goroutine.store c → Produced env call s.built c
  returned : ∀ i c, s.routines i = Goroutine.done (Ret.value c) → Produced env call s.built c
  built_pos : ∀ i, (s.routines i).past = 1 → 1 ≤ s.built.length
  idle : ∀ i, N ≤ i → s.routines i = Goroutine.fwCheck
  count : s.built.length ≤ ∑ i in Finset.range N, (s.routines i).past

/-- A factory whose `k`-th invocation gives handle `k + 1`, and a watcher that reports no
change. -/
def raceEnv : Env Nat :=
  { newCryptFromFiles := fun k _ => Except.ok (k + 1), wasTriggered := fun _ => false }

/-- A manager that has its watcher running and holds handle 100 for "other". -/
def raceManager : Manager Nat :=
  { cache := [("other", 100)], fw := some (NewFileWatcher "priv" "pub"),
    cfg := { PrivateKeyPath := "priv", PublicKeyPath := "pub" } }

/-- Goroutines 0 and 1 both get as far as a missed lookup before either calls the factory. -/
def raceSchedule : List Nat :=
  [0, 0, 0, 0, 1, 1, 1, 1, 0, 1, 0, 1]

/-- The manager as `GetOrCreate` sees it at the lookup: watcher started, cache reset when the
watcher was triggered or the cache was empty. -/
def Manager.atLookup {Crypt : Type} (wasTriggered : Bool) (m : Manager Crypt) : Manager Crypt :=
  { cache := if wasTriggered || m.cache.len == 0 then [] else m.cache
    fw := match m.fw with
      | none => some (NewFileWatcher m.cfg.PrivateKeyPath m.cfg.PublicKeyPath)
      | some w => some w
    cfg := m.cfg }

/-! # Lemmas and theorems -/

/-! ## Lemmas on Go maps -/

section GoMapLemmas

variable {V : Type}

theorem GoMap.index_nil (k : String) : GoMap.index ([] : GoMap V) k = none := rfl

theorem GoMap.index_cons (m : GoMap V) (a k : String) (v : V) :
    GoMap.index ((a, v) :: m) k = if k = a then some v else GoMap.index m k := by
  unfold GoMap.index
  rw [List.lookup_cons]
  by_cases h : k = a
  · simp [h]
  · have hb : (k == a) = false := by simpa using h
    simp [hb, h]

theorem GoMap.index_filter_ne (m : GoMap V) (a k : String) (h : k ≠ a) :
    GoMap.index (m.filter (fun e => e.1 != a)) k = GoMap.index m k := by
  induction m with
  | nil => rfl
  | cons e rest ih =>
    obtain ⟨b, v⟩ := e
    by_cases hb : b = a
    · subst hb
      have : ((b, v) :: rest).filter (fun e => e.1 != b) = rest.filter (fun e => e.1 != b) := by
        simp [List.filter_cons]
      rw [this, ih, GoMap.index_cons, if_neg h]
    · have : ((b, v) :: rest).filter (fun e => e.1 != a)
          = (b, v) :: rest.filter (fun e => e.1 != a) := by
        simp [List.filter_cons, hb]
      rw [this, GoMap.index_cons, GoMap.index_cons, ih]

theorem GoMap.index_assign_self (m : GoMap V) (k : String) (v : V) :
    (m.assign k v).index k = some v := by
  unfold GoMap.assign
  rw [GoMap.index_cons, if_pos rfl]

theorem GoMap.index_assign_ne (m : GoMap V) (a k : String) (v : V) (h : k ≠ a) :
    (m.assign a v).index k = m.index k := by
  unfold GoMap.assign
  rw [GoMap.index_cons, if_neg h, GoMap.index_filter_ne m a k h]

end GoMapLemmas

/-! ## Lemmas on Go strings -/

section GetOrCreateLemmas

variable {Crypt : Type}

theorem Manager.GetOrCreate_eq (f : Factory Crypt) (t : Bool) (m : Manager Crypt)
    (id : String) :
    m.GetOrCreate f t id =
      match (m.atLookup t).get id with
      | some c => { mgr := m.atLookup t, built := [], ret := Ret.value c }
      | none =>
        match f ((m.atLookup t).factoryCall id) with
        | Except.error err =>
          { mgr := m.atLookup t, built := [(m.atLookup t).factoryCall id],
            ret := Ret.panic ("unable to create a crypt: " ++ err) }
        | Except.ok c =>
          { mgr := { m.atLookup t with cache := (m.atLookup t).cache.assign id c },
            built := [(m.atLookup t).factoryCall id], ret := Ret.value c } := by
  obtain ⟨cache, fw, cfg⟩ := m
  cases fw <;> cases t <;> by_cases h : GoMap.len cache = 0 <;>
    simp [Manager.GetOrCreate, Manager.atLookup, Manager.reset, Manager.get,
      Manager.factoryCall, h]

theorem Manager.atLookup_get (t : Bool) (m : Manager Crypt) (id : String) :
    (m.atLookup t).get id = if t then none else m.get id := by
  obtain ⟨cache, fw, cfg⟩ := m
  cases t
  · by_cases h : GoMap.len cache = 0
    · have hc : cache = [] := List.length_eq_zero.mp h
      subst hc
      simp [Manager.atLookup, Manager.get, GoMap.index, GoMap.len]
    · simp [Manager.atLookup, Manager.get, h]
  · simp [Manager.atLookup, Manager.get, GoMap.index]

theorem Manager.atLookup_cache_false (m : Manager Crypt) :
    (m.atLookup false).cache = m.cache := by
  obtain ⟨cache, fw, cfg⟩ := m
  by_cases h : GoMap.len cache = 0
  · have hc : cache = [] := List.length_eq_zero.mp h
    subst hc
    simp [Manager.atLookup]
  · simp [Manager.atLookup, h]

theorem Manager.atLookup_cache_true (m : Manager Crypt) :
    (m.atLookup true).cache = [] := by
  simp [Manager.atLookup]

theorem Manager.atLookup_factoryCall (t : Bool) (m : Manager Crypt) (id : String) :
    (m.atLookup t).factoryCall id = m.factoryCall id := rfl

theorem Manager.atLookup_started (m : Manager Crypt) (w : FileWatcher) (h : m.fw = some w) :
    m.atLookup false = m := by
  obtain ⟨cache, fw, cfg⟩ := m
  have hc := Manager.atLookup_cache_false (Manager.mk cache fw cfg)
  simp only at h
  subst h
  simp only [Manager.atLookup] at hc ⊢
  rw [hc]

theorem Manager.GetOrCreate_fw (f : Factory Crypt) (t : Bool) (m : Manager Crypt)
    (id : String) : ∃ w, (m.GetOrCreate f t id).mgr.fw = some w := by
  have hfw : ∃ w, (m.atLookup t).fw = some w := by
    obtain ⟨cache, fw, cfg⟩ := m
    cases fw <;> simp [Manager.atLookup]
  rw [Manager.GetOrCreate_eq]
  cases (m.atLookup t).get id with
  | some c => exact hfw
  | none =>
    cases f ((m.atLookup t).factoryCall id) with
    | error err => exact hfw
    | ok c => exact hfw

theorem Manager.GetOrCreate_value_cached (f : Factory Crypt) (t : Bool) (m : Manager Crypt)
    (id : String) (c : Crypt) (h : (m.GetOrCreate f t id).ret = Ret.value c) :
    (m.GetOrCreate f t id).mgr.get id = some c := by
  rw [Manager.GetOrCreate_eq] at h ⊢
  cases hget : (m.atLookup t).get id with
  | some c' =>
    rw [hget] at h
    simp only [Ret.value.injEq] at h
    subst h
    simpa using hget
  | none =>
    rw [hget] at h
    cases hf : f ((m.atLookup t).factoryCall id) with
    | error err =>
      rw [hf] at h
      simp at h
    | ok c' =>
      rw [hf] at h
      simp only [Ret.value.injEq] at h
      subst h
      simp [Manager.get, GoMap.index_assign_self]

theorem Manager.GetOrCreate_hit (f : Factory Crypt) (m : Manager Crypt) (id : String)
    (w : FileWatcher) (c : Crypt) (hfw : m.fw = some w) (hget : m.get id = some c) :
    m.GetOrCreate f false id = { mgr := m, built := [], ret := Ret.value c } := by
  rw [Manager.GetOrCreate_eq, Manager.atLookup_started m w hfw, hget]

end GetOrCreateLemmas

/-! ## The handle cache -/

section HandleCache

variable {Crypt : Type}

/-- C1: when a call `GetOrCreate(id)` has returned handle `c` and the watcher reports no
change at the next call, that next call `GetOrCreate(id)` returns the same `c`; it is a cache
hit: the first call left `c` in the cache under `id`, the second call makes no factory call
and leaves the manager as it was.  This holds for every identity, the non-empty ones
included, whatever the watcher reported in the first call and whatever the factory would
give in the second. -/
theorem GetOrCreate_second_call_is_cache_hit (f₁ f₂ : Factory Crypt) (t₁ : Bool)
    (m : Manager Crypt) (id : String) (c : Crypt)
    (hfirst : (m.GetOrCreate f₁ t₁ id).ret = Ret.value c) :
    (m.GetOrCreate f₁ t₁ id).mgr.get id = some c ∧
    ((m.GetOrCreate f₁ t₁ id).mgr.GetOrCreate f₂ false id).ret = Ret.value c ∧
    ((m.GetOrCreate f₁ t₁ id).mgr.GetOrCreate f₂ false id).built = [] ∧
    ((m.GetOrCreate f₁ t₁ id).mgr.GetOrCreate f₂ false id).mgr.cache
      = (m.GetOrCreate f₁ t₁ id).mgr.cache := by
  have hget := Manager.GetOrCreate_value_cached f₁ t₁ m id c hfirst
  obtain ⟨w, hfw⟩ := Manager.GetOrCreate_fw f₁ t₁ m id
  rw [Manager.GetOrCreate_hit f₂ _ id w c hfw hget]
  exact ⟨hget, rfl, rfl, rfl⟩

/-- The first call builds handle 7 for "paasName", the second call returns it from the
cache. -/
theorem GetOrCreate_second_call_is_cache_hit_witness :
    ((NewManager { PrivateKeyPath := "priv", PublicKeyPath := "pub" } : Manager Nat).GetOrCreate
        (fun _ => Except.ok 7) false "paasName").ret = Ret.value 7 ∧
    ((((NewManager { PrivateKeyPath := "priv", PublicKeyPath := "pub" } : Manager Nat).GetOrCreate
        (fun _ => Except.ok 7) false "paasName").mgr.GetOrCreate
        (fun _ => Except.ok 8) false "paasName").ret = Ret.value 7) :=
  ⟨by decide,
    (GetOrCreate_second_call_is_cache_hit (fun _ => Except.ok 7) (fun _ => Except.ok 8) false
      (NewManager { PrivateKeyPath := "priv", PublicKeyPath := "pub" }) "paasName" 7
      (by decide)).2.1⟩

/-- C2: when `id` is cached and the watcher reports a change at the next call, that call
`GetOrCreate(id)` does not answer from the cache: it calls the factory once, with the
configured key paths and `id`, and what it returns is what the factory gives in this call
(so it is not the old handle unless the factory itself hands that one out again), whereas
the same call with no change reported would have returned the cached handle.
Afterwards the cache holds nothing from before the change, for any identity: the only entry
it can hold is `id` with the handle just built, and it is empty when the factory failed. -/
theorem GetOrCreate_after_rotation (f : Factory Crypt) (m : Manager Crypt) (id : String)
    (old : Crypt) (hcached : m.get id = some old) :
    (m.GetOrCreate f true id).built
      = [{ privateKeyPaths := [m.cfg.PrivateKeyPath], publicKeyPath := m.cfg.PublicKeyPath,
           encryptionContext := id }] ∧
    (∀ c, f (m.factoryCall id) = Except.ok c →
      (m.GetOrCreate f true id).ret = Ret.value c ∧
      (m.GetOrCreate f true id).mgr.cache = [(id, c)]) ∧
    (∀ err, f (m.factoryCall id) = Except.error err →
      (m.GetOrCreate f true id).ret = Ret.panic ("unable to create a crypt: " ++ err) ∧
      (m.GetOrCreate f true id).mgr.cache = []) ∧
    (∀ k h, (m.GetOrCreate f true id).mgr.get k = some h →
      k = id ∧ f (m.factoryCall id) = Except.ok h) ∧
    (f (m.factoryCall id) ≠ Except.ok old → (m.GetOrCreate f true id).ret ≠ Ret.value old) ∧
    (m.GetOrCreate f false id).ret = Ret.value old := by
  have hget : (m.atLookup true).get id = none := by rw [Manager.atLookup_get]; rfl
  have hhit : (m.GetOrCreate f false id).ret = Ret.value old := by
    have hget' : (m.atLookup false).get id = some old := by
      rw [Manager.atLookup_get]; simpa using hcached
    rw [Manager.GetOrCreate_eq, hget']
  rw [Manager.GetOrCreate_eq f true, hget, Manager.atLookup_factoryCall]
  cases hf : f (m.factoryCall id) with
  | error err =>
    refine ⟨rfl, ?_, ?_, ?_, ?_, hhit⟩
    · intro c hc; cases hc
    · intro e he
      cases he
      exact ⟨rfl, Manager.atLookup_cache_true m⟩
    · intro k h hk
      simp [Manager.get, Manager.atLookup, GoMap.index] at hk
    · intro _ hold
      cases hold
  | ok c =>
    refine ⟨rfl, ?_, ?_, ?_, ?_, hhit⟩
    · intro c' hc
      cases hc
      refine ⟨rfl, ?_⟩
      simp [Manager.atLookup, GoMap.assign]
    · intro e he; cases he
    · intro k h hk
      simp only [Manager.get, Manager.atLookup_cache_true, GoMap.assign, List.filter_nil,
        GoMap.index_cons, GoMap.index_nil] at hk
      by_cases hkid : k = id
      · rw [if_pos hkid] at hk
        cases hk
        exact ⟨hkid, rfl⟩
      · rw [if_neg hkid] at hk
        cases hk
    · intro hne hold
      cases hold
      exact hne rfl

/-- With "a" and "b" cached as handles 1 and 2, a call for "a" at which the watcher reports
a change gets the new handle 3, and "b" is gone as well. -/
theorem GetOrCreate_after_rotation_witness :
    (({ cache := [("a", 1), ("b", 2)], fw := some (NewFileWatcher "priv" "pub"),
        cfg := { PrivateKeyPath := "priv", PublicKeyPath := "pub" } } : Manager Nat).get "a"
      = some 1) ∧
    (({ cache := [("a", 1), ("b", 2)], fw := some (NewFileWatcher "priv" "pub"),
        cfg := { PrivateKeyPath := "priv", PublicKeyPath := "pub" } } : Manager Nat).GetOrCreate
      (fun _ => Except.ok 3) true "a").mgr.cache = [("a", 3)] :=
  ⟨by decide,
    ((GetOrCreate_after_rotation (fun _ => Except.ok 3)
      ({ cache := [("a", 1), ("b", 2)], fw := some (NewFileWatcher "priv" "pub"),
         cfg := { PrivateKeyPath := "priv", PublicKeyPath := "pub" } } : Manager Nat) "a" 1
      (by decide)).2.1 3 rfl).2⟩

/-- C4: when `id` is not in the cache, `GetOrCreate(id)` calls the factory once, with the
configured private key path (as the only element of the list), the configured public key
path and `id`.  When the factory gives a handle, that handle is returned and the cache
afterwards maps `id` to it.  When the factory fails, the call does not return a handle: it
panics with the factory's error (wrapped), and the cache has no entry for `id`. -/
theorem GetOrCreate_miss (f : Factory Crypt) (t : Bool) (m : Manager Crypt) (id : String)
    (hmiss : m.get id = none) :
    (m.GetOrCreate f t id).built
      = [{ privateKeyPaths := [m.cfg.PrivateKeyPath], publicKeyPath := m.cfg.PublicKeyPath,
           encryptionContext := id }] ∧
    (∀ c, f { privateKeyPaths := [m.cfg.PrivateKeyPath], publicKeyPath := m.cfg.PublicKeyPath,
              encryptionContext := id } = Except.ok c →
      (m.GetOrCreate f t id).ret = Ret.value c ∧
      (m.GetOrCreate f t id).mgr.get id = some c) ∧
    (∀ err, f { privateKeyPaths := [m.cfg.PrivateKeyPath],
                publicKeyPath := m.cfg.PublicKeyPath, encryptionContext := id }
        = Except.error err →
      (m.GetOrCreate f t id).ret = Ret.panic ("unable to create a crypt: " ++ err) ∧
      (m.GetOrCreate f t id).mgr.get id = none) := by
  have hget : (m.atLookup t).get id = none := by
    rw [Manager.atLookup_get, hmiss]; simp
  rw [Manager.GetOrCreate_eq, hget, Manager.atLookup_factoryCall]
  change _ ∧ (∀ c, f (m.factoryCall id) = Except.ok c → _) ∧
    (∀ err, f (m.factoryCall id) = Except.error err → _)
  cases hf : f (m.factoryCall id) with
  | error err =>
    refine ⟨rfl, ?_, ?_⟩
    · intro c hc; cases hc
    · intro e he
      cases he
      exact ⟨rfl, hget⟩
  | ok c =>
    refine ⟨rfl, ?_, ?_⟩
    · intro c' hc
      cases hc
      exact ⟨rfl, by simp [Manager.get, GoMap.index_assign_self]⟩
    · intro e he; cases he

/-- A fresh manager asked for "paasName": the factory is called and its handle 7 is returned
and cached. -/
theorem GetOrCreate_miss_witness :
    ((NewManager { PrivateKeyPath := "priv", PublicKeyPath := "pub" } : Manager Nat).get
      "paasName" = none) ∧
    ((NewManager { PrivateKeyPath := "priv", PublicKeyPath := "pub" } : Manager Nat).GetOrCreate
      (fun _ => Except.ok 7) false "paasName").built
      = [{ privateKeyPaths := ["priv"], publicKeyPath := "pub",
           encryptionContext := "paasName" }] :=
  ⟨by decide,
    (GetOrCreate_miss (fun _ => Except.ok 7) false
      (NewManager { PrivateKeyPath := "priv", PublicKeyPath := "pub" }) "paasName"
      (by decide)).1⟩

/-- C5, as stated, fails: on a fresh manager whose factory accepts the empty identity,
`GetOrCreate("")` returns the factory's handle and stores it under the empty identity. -/
theorem GetOrCreate_empty_identity_accepted :
    ((NewManager { PrivateKeyPath := "priv", PublicKeyPath := "pub" } : Manager Nat).GetOrCreate
      (fun _ => Except.ok 7) false "").ret = Ret.value 7 ∧
    ((NewManager { PrivateKeyPath := "priv", PublicKeyPath := "pub" } : Manager Nat).GetOrCreate
      (fun _ => Except.ok 7) false "").mgr.get "" = some 7 := by
  decide

/-- C5, amended: `GetOrCreate("")` makes no check of its own on the identity.  It fails
exactly when the lookup of the empty identity misses (nothing cached under it, or the
watcher reports a change) and the factory fails for the empty identity; then it returns no
handle and no entry is stored under the empty identity.  Otherwise it returns a handle, and
the cache then holds that handle under the empty identity. -/
theorem GetOrCreate_empty_identity (f : Factory Crypt) (t : Bool) (m : Manager Crypt) :
    ((∃ msg, (m.GetOrCreate f t "").ret = Ret.panic msg) ↔
      ((if t then none else m.get "") = none ∧
        ∃ err, f { privateKeyPaths := [m.cfg.PrivateKeyPath],
                   publicKeyPath := m.cfg.PublicKeyPath, encryptionContext := "" }
          = Except.error err)) ∧
    (∀ msg, (m.GetOrCreate f t "").ret = Ret.panic msg →
      (m.GetOrCreate f t "").mgr.get "" = none) ∧
    (∀ c, (m.GetOrCreate f t "").ret = Ret.value c →
      (m.GetOrCreate f t "").mgr.get "" = some c) := by
  refine ⟨?_, ?_, fun c hc => Manager.GetOrCreate_value_cached f t m "" c hc⟩
  · rw [Manager.GetOrCreate_eq, ← Manager.atLookup_get]
    change _ ↔ (_ ∧ ∃ err, f ((m.atLookup t).factoryCall "") = Except.error err)
    cases hget : (m.atLookup t).get "" with
    | some c => simp
    | none =>
      cases hf : f ((m.atLookup t).factoryCall "") with
      | error err => simp
      | ok c => simp
  · intro msg
    rw [Manager.GetOrCreate_eq]
    cases hget : (m.atLookup t).get "" with
    | some c => simp
    | none =>
      cases hf : f ((m.atLookup t).factoryCall "") with
      | error err => intro _; exact hget
      | ok c => simp

/-- C6: a call `GetOrCreate(id)` at which the watcher reports no change removes nothing and
changes no handle: every entry present before the call is present with the same handle
after it (also when the cache was empty, where the reset branch runs), and for every
identity other than `id` the cache answers after the call what it answered before, so `id`
is the only entry that can have been added. -/
theorem GetOrCreate_frame (f : Factory Crypt) (m : Manager Crypt) (id : String) :
    (∀ k h, m.get k = some h → (m.GetOrCreate f false id).mgr.get k = some h) ∧
    (∀ k, k ≠ id → (m.GetOrCreate f false id).mgr.get k = m.get k) ∧
    (m.cache = [] → ∀ k, k ≠ id → (m.GetOrCreate f false id).mgr.get k = none) := by
  have hcache := Manager.atLookup_cache_false m
  have hkeep : ∀ k, k ≠ id → (m.GetOrCreate f false id).mgr.get k = m.get k := by
    intro k hk
    rw [Manager.GetOrCreate_eq]
    cases hget : (m.atLookup false).get id with
    | some c => simp [Manager.get, hcache]
    | none =>
      cases hf : f ((m.atLookup false).factoryCall id) with
      | error err => simp [Manager.get, hcache]
      | ok c => simp [Manager.get, hcache, GoMap.index_assign_ne _ id k c hk]
  refine ⟨?_, hkeep, ?_⟩
  · intro k h hk
    by_cases hkid : k = id
    · subst hkid
      have hget : (m.atLookup false).get k = some h := by
        rw [Manager.atLookup_get]; simpa using hk
      rw [Manager.GetOrCreate_eq, hget]
      exact hget
    · rw [hkeep k hkid, hk]
  · intro hempty k hk
    rw [hkeep k hk]
    simp [Manager.get, hempty, GoMap.index]

/-- The empty identity with a factory that rejects it: the call panics and nothing is
stored. -/
theorem GetOrCreate_empty_identity_witness :
    ∃ msg, ((NewManager { PrivateKeyPath := "priv", PublicKeyPath := "pub" }
      : Manager Nat).GetOrCreate (fun _ => Except.error "empty context") false "").ret
      = Ret.panic msg :=
  (GetOrCreate_empty_identity (fun _ => Except.error "empty context") false
    (NewManager { PrivateKeyPath := "priv", PublicKeyPath := "pub" } : Manager Nat)).1.mpr
    ⟨rfl, "empty context", rfl⟩

/-- With "a" cached as handle 1, a call for "b" without a change keeps "a". -/
theorem GetOrCreate_frame_witness :
    (({ cache := [("a", 1)], fw := some (NewFileWatcher "priv" "pub"),
        cfg := { PrivateKeyPath := "priv", PublicKeyPath := "pub" } } : Manager Nat).GetOrCreate
      (fun _ => Except.ok 2) false "b").mgr.get "a" = some 1 :=
  (GetOrCreate_frame (fun _ => Except.ok 2)
    ({ cache := [("a", 1)], fw := some (NewFileWatcher "priv" "pub"),
       cfg := { PrivateKeyPath := "priv", PublicKeyPath := "pub" } } : Manager Nat) "b").1
    "a" 1 (by decide)

end HandleCache

/-! ## The bundle validator -/

section BundleValidator

variable {Crypt : Type}

theorem checkSecrets_ok_iff (decrypt : Crypt → String → Except String String) (c : Crypt)
    (position : Option String) (secrets : GoMap String) :
    checkSecrets decrypt c position secrets = Except.ok () ↔
      ∀ entry ∈ secrets, Decrypts decrypt c entry.2 := by
  induction secrets with
  | nil => simp [checkSecrets]
  | cons entry rest ih =>
    obtain ⟨name, secret⟩ := entry
    cases hd : decrypt c secret with
    | error err => simp [checkSecrets, hd, Decrypts]
    | ok plain => simp [checkSecrets, hd, ih, Decrypts]

theorem checkCapabilities_ok_iff (decrypt : Crypt → String → Except String String) (c : Crypt)
    (capabilities : GoMap PaasCapability) :
    checkCapabilities decrypt c capabilities = Except.ok () ↔
      ∀ cap ∈ capabilities, ∀ entry ∈ cap.2.SSHSecrets, Decrypts decrypt c entry.2 := by
  induction capabilities with
  | nil => simp [checkCapabilities]
  | cons cap rest ih =>
    obtain ⟨name, capability⟩ := cap
    have hs := checkSecrets_ok_iff decrypt c (some name) capability.SSHSecrets
    cases hc : checkSecrets decrypt c (some name) capability.SSHSecrets with
    | error err =>
      rw [hc] at hs
      have hno : ¬ ∀ entry ∈ capability.SSHSecrets, Decrypts decrypt c entry.2 := by
        intro hall
        have := hs.mpr hall
        cases this
      simp only [checkCapabilities, hc, List.mem_cons, forall_eq_or_imp]
      constructor
      · intro h; cases h
      · intro h; exact absurd h.1 hno
    | ok u =>
      rw [hc] at hs
      have hall : ∀ entry ∈ capability.SSHSecrets, Decrypts decrypt c entry.2 := hs.mp rfl
      simp only [checkCapabilities, hc, List.mem_cons, forall_eq_or_imp, ih]
      constructor
      · intro h; exact ⟨hall, h⟩
      · intro h; exact h.2

/-- C3: `CheckPaas` returns no error if and only if every secret of the bundle decrypts under
the handle: every top-level secret and every secret of every capability, whatever the
capability's enabled flag (the flag is never read).  In particular, when a secret of some
capability does not decrypt, the bundle is rejected with an error even if all top-level
secrets decrypt. -/
theorem CheckPaas_ok_iff_all_decrypt (decrypt : Crypt → String → Except String String)
    (c : Crypt) (paas : Paas) :
    (CheckPaas decrypt c paas = Except.ok () ↔
      (∀ entry ∈ paas.SSHSecrets, Decrypts decrypt c entry.2) ∧
      (∀ cap ∈ paas.Capabilities, ∀ entry ∈ cap.2.SSHSecrets, Decrypts decrypt c entry.2)) ∧
    (∀ cap ∈ paas.Capabilities, ∀ entry ∈ cap.2.SSHSecrets, ¬ Decrypts decrypt c entry.2 →
      ∃ err, CheckPaas decrypt c paas = Except.error err) := by
  have hiff : CheckPaas decrypt c paas = Except.ok () ↔
      (∀ entry ∈ paas.SSHSecrets, Decrypts decrypt c entry.2) ∧
      (∀ cap ∈ paas.Capabilities, ∀ entry ∈ cap.2.SSHSecrets, Decrypts decrypt c entry.2) := by
    have hs := checkSecrets_ok_iff decrypt c none paas.SSHSecrets
    have hc := checkCapabilities_ok_iff decrypt c paas.Capabilities
    unfold CheckPaas
    cases htop : checkSecrets decrypt c none paas.SSHSecrets with
    | error err =>
      rw [htop] at hs
      constructor
      · intro h; cases h
      · intro h
        have := hs.mpr h.1
        cases this
    | ok u =>
      rw [htop] at hs
      constructor
      · intro h; exact ⟨hs.mp rfl, hc.mp h⟩
      · intro h; exact hc.mpr h.2
  refine ⟨hiff, ?_⟩
  intro cap hcap entry hentry hbad
  cases hres : CheckPaas decrypt c paas with
  | error err => exact ⟨err, rfl⟩
  | ok u =>
    cases u
    exact absurd ((hiff.mp hres).2 cap hcap entry hentry) hbad

/-- The bundle of the test whose top-level secret decrypts and whose capability secret
does not: it is rejected. -/
theorem CheckPaas_ok_iff_all_decrypt_witness :
    ∃ err, CheckPaas testDecrypt 7 partialToBeDecryptedPaas = Except.error err :=
  (CheckPaas_ok_iff_all_decrypt testDecrypt 7 partialToBeDecryptedPaas).2
    ("sso", { Enabled := true, SSHSecrets := [(repoName, "bm90RGVjcnlwdGFibGU=")] })
    (by decide) (repoName, "bm90RGVjcnlwdGFibGU=") (by decide)
    (by
      rintro ⟨plain, h⟩
      simp [testDecrypt] at h)

end BundleValidator

/-! ## The request handlers -/

section Handlers

variable {Crypt : Type}

/-- C9: for a request that binds to `input`: when the secret does not parse as a private
key, `V1Encrypt` answers 200 with `Valid = false`, the same name and an empty `Encrypted`,
and it does not call `GetOrCreate` (handler and cache are as before, no factory call).  When
the secret parses, `GetOrCreate` gives handle `rsa` for the name and `rsa` encrypts the
secret to `encrypted`, it answers 200 with `Valid = true`, the same name and that
`encrypted`; `rsa` is the handle the cache holds for the name afterwards. -/
theorem V1Encrypt_reply (parsePrivateKey : String → Bool)
    (encrypt : Crypt → String → Except String String) (f : Factory Crypt) (t : Bool)
    (h : Handler Crypt) (input : RestEncryptInput) :
    (parsePrivateKey input.Secret = false →
      (h.V1Encrypt parsePrivateKey encrypt f t (Except.ok input)).reply
        = Reply.json 200 { PaasName := input.PaasName, Encrypted := "", Valid := false } ∧
      (h.V1Encrypt parsePrivateKey encrypt f t (Except.ok input)).asked = [] ∧
      (h.V1Encrypt parsePrivateKey encrypt f t (Except.ok input)).built = [] ∧
      (h.V1Encrypt parsePrivateKey encrypt f t (Except.ok input)).handler = h) ∧
    (parsePrivateKey input.Secret = true →
      ∀ rsa encrypted, (h.CryptMgr.GetOrCreate f t input.PaasName).ret = Ret.value rsa →
        encrypt rsa input.Secret = Except.ok encrypted →
        (h.V1Encrypt parsePrivateKey encrypt f t (Except.ok input)).reply
          = Reply.json 200 { PaasName := input.PaasName, Encrypted := encrypted,
                             Valid := true } ∧
        (h.V1Encrypt parsePrivateKey encrypt f t (Except.ok input)).asked = [input.PaasName] ∧
        (h.V1Encrypt parsePrivateKey encrypt f t (Except.ok input)).handler.CryptMgr.get
          input.PaasName = some rsa) := by
  refine ⟨?_, ?_⟩
  · intro hparse
    simp [Handler.V1Encrypt, hparse, StatusOK]
  · intro hparse rsa encrypted hrsa henc
    have hcached := Manager.GetOrCreate_value_cached f t h.CryptMgr input.PaasName rsa hrsa
    simp [Handler.V1Encrypt, hparse, hrsa, henc, StatusOK, hcached]

/-- The caller "paas-a" sends something that is no private key, then a private key. -/
theorem V1Encrypt_reply_witness :
    ((NewHandler (NewManager { PrivateKeyPath := "priv", PublicKeyPath := "pub" })
        : Handler Nat).V1Encrypt (fun secret => secret == "KEY") (fun _ _ => Except.ok "E")
        (fun _ => Except.ok 7) false
        (Except.ok { PaasName := "paas-a", Secret := "not-a-key" })).reply
      = Reply.json 200 { PaasName := "paas-a", Encrypted := "", Valid := false } ∧
    ((NewHandler (NewManager { PrivateKeyPath := "priv", PublicKeyPath := "pub" })
        : Handler Nat).V1Encrypt (fun secret => secret == "KEY") (fun _ _ => Except.ok "E")
        (fun _ => Except.ok 7) false
        (Except.ok { PaasName := "paas-a", Secret := "KEY" })).reply
      = Reply.json 200 { PaasName := "paas-a", Encrypted := "E", Valid := true } :=
  ⟨((V1Encrypt_reply (fun secret => secret == "KEY") (fun _ _ => Except.ok "E")
      (fun _ => Except.ok 7) false
      (NewHandler (NewManager { PrivateKeyPath := "priv", PublicKeyPath := "pub" }))
      { PaasName := "paas-a", Secret := "not-a-key" }).1 (by decide)).1,
    ((V1Encrypt_reply (fun secret => secret == "KEY") (fun _ _ => Except.ok "E")
      (fun _ => Except.ok 7) false
      (NewHandler (NewManager { PrivateKeyPath := "priv", PublicKeyPath := "pub" }))
      { PaasName := "paas-a", Secret := "KEY" }).2 (by decide) 7 "E" (by decide) rfl).1⟩

end Handlers

/-! ## The Content-Security-Policy header -/

/-- C10: `buildCSP` gives the seven directives default-src, script-src, style-src, img-src,
connect-src, font-src, object-src, in this order, joined by "; ".  default-src and
object-src are always 'none'.  For empty `externalHosts` each of the other five is its name
followed by 'self'; for non-empty `externalHosts` each of the five is its name, 'self', a
blank and `externalHosts`; nothing is appended to default-src or object-src. -/
theorem buildCSP_directives (externalHosts : String) :
    (externalHosts = "" →
      buildCSP externalHosts = String.intercalate "; "
        ["default-src 'none'", "script-src 'self'", "style-src 'self'", "img-src 'self'",
         "connect-src 'self'", "font-src 'self'", "object-src 'none'"]) ∧
    (externalHosts ≠ "" →
      buildCSP externalHosts = String.intercalate "; "
        ["default-src 'none'", "script-src 'self' " ++ externalHosts,
         "style-src 'self' " ++ externalHosts, "img-src 'self' " ++ externalHosts,
         "connect-src 'self' " ++ externalHosts, "font-src 'self' " ++ externalHosts,
         "object-src 'none'"]) := by
  constructor
  · intro h
    subst h
    decide
  · intro h
    have hne : (externalHosts != "") = true := by simpa using h
    simp only [buildCSP, hne, if_true, String.intercalate, String.intercalate.go]
    apply String.ext
    simp [String.data_append]

/-- The header for no external host and for one external host. -/
theorem buildCSP_directives_witness :
    buildCSP "" = "default-src 'none'; script-src 'self'; style-src 'self'; " ++
      "img-src 'self'; connect-src 'self'; font-src 'self'; object-src 'none'" ∧
    buildCSP "https://a.example" = String.intercalate "; "
        ["default-src 'none'", "script-src 'self' " ++ "https://a.example",
         "style-src 'self' " ++ "https://a.example", "img-src 'self' " ++ "https://a.example",
         "connect-src 'self' " ++ "https://a.example", "font-src 'self' " ++ "https://a.example",
         "object-src 'none'"] :=
  ⟨(buildCSP_directives "").1 rfl, (buildCSP_directives "https://a.example").2 (by decide)⟩

/-! ## Concurrent calls -/

section Concurrency

variable {Crypt : Type}

theorem Produced.mono {env : Env Crypt} {call : FactoryCall} {built : List FactoryCall}
    {c : Crypt} (h : Produced env call built c) (extra : List FactoryCall) :
    Produced env call (built ++ extra) c := by
  obtain ⟨k, hk, hget, hf⟩ := h
  refine ⟨k, ?_, ?_, hf⟩
  · rw [List.length_append]; omega
  · rw [List.getElem?_append_left hk]; exact hget

theorem Produced.last {env : Env Crypt} {call : FactoryCall} {built : List FactoryCall}
    {c : Crypt} (h : env.newCryptFromFiles built.length call = Except.ok c) :
    Produced env call (built ++ [call]) c := by
  refine ⟨built.length, ?_, ?_, h⟩
  · simp
  · simp

theorem Goroutine.past_le_one (g : Goroutine Crypt) : g.past ≤ 1 := by
  cases g <;> simp [Goroutine.past]

theorem sum_goto (f : Nat → Nat) (N i a : Nat) (hi : i < N) :
    (∑ j in Finset.range N, (if j = i then a else f j)) + f i
      = (∑ j in Finset.range N, f j) + a := by
  have hmem : i ∈ Finset.range N := Finset.mem_range.mpr hi
  have h₁ := Finset.add_sum_erase (Finset.range N) (fun j => if j = i then a else f j) hmem
  have h₂ := Finset.add_sum_erase (Finset.range N) f hmem
  have h₃ : ∑ j in (Finset.range N).erase i, (if j = i then a else f j)
      = ∑ j in (Finset.range N).erase i, f j := by
    apply Finset.sum_congr rfl
    intro j hj
    rw [if_neg (Finset.ne_of_mem_erase hj)]
  simp only [if_true] at h₁
  omega

theorem Service.Inv.move {env : Env Crypt} {call : FactoryCall} {id : String} {N : Nat}
    {s : Service Crypt} (hinv : Service.Inv env call id N s) {i : Nat} (hi : i < N)
    (mgr : Manager Crypt) (built extra : List FactoryCall) (polls : Nat) (g : Goroutine Crypt)
    (hbuilt : built = s.built ++ extra)
    (hcall : mgr.factoryCall id = call)
    (hcached : ∀ c, mgr.get id = some c → Produced env call built c)
    (hstore : ∀ c, g = Goroutine.store c → Produced env call built c)
    (hret : ∀ c, g = Goroutine.done (Ret.value c) → Produced env call built c)
    (hpos : g.past = 1 → 1 ≤ built.length)
    (hcount : extra.length + (s.routines i).past ≤ g.past) :
    Service.Inv env call id N
      { mgr := mgr, built := built, polls := polls,
        routines := fun j => if j = i then g else s.routines j } where
  call_eq := hcall
  cached := hcached
  stored := by
    intro j c hj
    by_cases hji : j = i
    · simp only [hji, if_true] at hj
      exact hstore c hj
    · simp only [hji, if_false] at hj
      rw [hbuilt]
      exact (hinv.stored j c hj).mono extra
  returned := by
    intro j c hj
    by_cases hji : j = i
    · simp only [hji, if_true] at hj
      exact hret c hj
    · simp only [hji, if_false] at hj
      rw [hbuilt]
      exact (hinv.returned j c hj).mono extra
  built_pos := by
    intro j hj
    by_cases hji : j = i
    · simp only [hji, if_true] at hj
      exact hpos hj
    · simp only [hji, if_false] at hj
      have := hinv.built_pos j hj
      simp only [hbuilt, List.length_append]
      omega
  idle := by
    intro j hj
    have hji : j ≠ i := by omega
    simp only [hji, if_false]
    exact hinv.idle j hj
  count := by
    have hsum := sum_goto (fun j => (s.routines j).past) N i g.past hi
    have hc := hinv.count
    have hite : ∀ x, (if x = i then g else s.routines x).past
        = if x = i then g.past else (s.routines x).past := by
      intro x
      split <;> rfl
    simp only [hbuilt, List.length_append, hite]
    simp only at hsum
    omega

theorem Service.Inv.quiet {env : Env Crypt} {call : FactoryCall} {id : String} {N : Nat}
    {s : Service Crypt} (hinv : Service.Inv env call id N s) {i : Nat} (hi : i < N)
    (mgr : Manager Crypt) (polls : Nat) (g : Goroutine Crypt)
    (hcall : mgr.factoryCall id = call)
    (hget : ∀ c, mgr.get id = some c → s.mgr.get id = some c)
    (hold : (s.routines i).past = 0) (hg : g.past = 0) :
    Service.Inv env call id N
      { mgr := mgr, built := s.built, polls := polls,
        routines := fun j => if j = i then g else s.routines j } := by
  refine hinv.move hi mgr s.built [] polls g (List.append_nil _).symm hcall ?_ ?_ ?_ ?_ ?_
  · intro c hc
    exact hinv.cached c (hget c hc)
  · intro c hc
    rw [hc] at hg
    simp [Goroutine.past] at hg
  · intro c hc
    rw [hc] at hg
    simp [Goroutine.past] at hg
  · intro h
    omega
  · simp [hold]

theorem Service.Inv.step {env : Env Crypt} {call : FactoryCall} {id : String} {N : Nat}
    {s : Service Crypt} (hinv : Service.Inv env call id N s) {i : Nat} (hi : i < N) :
    Service.Inv env call id N (s.step env id i) := by
  cases hr : s.routines i with
  | fwCheck =>
    have hold : (s.routines i).past = 0 := by rw [hr]; rfl
    cases hfw : s.mgr.fw with
    | none =>
      have hstep : s.step env id i =
          { mgr := s.mgr
            built := s.built
            polls := s.polls
            routines := fun j =>
              if j = i then Goroutine.fwStart
              else s.routines j } := by
        simp only [Service.step, hr, hfw, Service.goto]
      rw [hstep]
      exact hinv.quiet hi s.mgr s.polls _ hinv.call_eq (fun _ h => h) hold rfl
    | some w =>
      have hstep : s.step env id i =
          { mgr := s.mgr
            built := s.built
            polls := s.polls
            routines := fun j =>
              if j = i then Goroutine.poll
              else s.routines j } := by
        simp only [Service.step, hr, hfw, Service.goto]
      rw [hstep]
      exact hinv.quiet hi s.mgr s.polls _ hinv.call_eq (fun _ h => h) hold rfl
  | fwStart =>
    have hold : (s.routines i).past = 0 := by rw [hr]; rfl
    have hstep : s.step env id i =
        { mgr := { s.mgr with
              fw := some (NewFileWatcher s.mgr.cfg.PrivateKeyPath s.mgr.cfg.PublicKeyPath) }
          built := s.built
          polls := s.polls
          routines := fun j =>
            if j = i then Goroutine.poll
            else s.routines j } := by
      simp only [Service.step, hr, Service.goto]
    rw [hstep]
    exact hinv.quiet hi _ s.polls _ hinv.call_eq (fun _ h => h) hold rfl
  | poll =>
    have hold : (s.routines i).past = 0 := by rw [hr]; rfl
    have hstep : s.step env id i =
        { mgr := s.mgr
          built := s.built
          polls := s.polls + 1
          routines := fun j =>
            if j = i then
              (if env.wasTriggered s.polls then Goroutine.doReset else Goroutine.lenCheck)
            else s.routines j } := by
      simp only [Service.step, hr, Service.goto]
    rw [hstep]
    refine hinv.quiet hi s.mgr (s.polls + 1) _ hinv.call_eq (fun _ h => h) hold ?_
    split <;> rfl
  | lenCheck =>
    have hold : (s.routines i).past = 0 := by rw [hr]; rfl
    have hstep : s.step env id i =
        { mgr := s.mgr
          built := s.built
          polls := s.polls
          routines := fun j =>
            if j = i then (if s.mgr.cache.len == 0 then Goroutine.doReset else Goroutine.doGet)
            else s.routines j } := by
      simp only [Service.step, hr, Service.goto]
    rw [hstep]
    refine hinv.quiet hi s.mgr s.polls _ hinv.call_eq (fun _ h => h) hold ?_
    split <;> rfl
  | doReset =>
    have hold : (s.routines i).past = 0 := by rw [hr]; rfl
    have hstep : s.step env id i =
        { mgr := s.mgr.reset
          built := s.built
          polls := s.polls
          routines := fun j =>
            if j = i then Goroutine.doGet
            else s.routines j } := by
      simp only [Service.step, hr, Service.goto]
    rw [hstep]
    refine hinv.quiet hi s.mgr.reset s.polls _ hinv.call_eq ?_ hold rfl
    intro c hc
    simp [Manager.reset, Manager.get, GoMap.index] at hc
  | doGet =>
    have hold : (s.routines i).past = 0 := by rw [hr]; rfl
    cases hget : s.mgr.get id with
    | none =>
      have hstep : s.step env id i =
          { mgr := s.mgr
            built := s.built
            polls := s.polls
            routines := fun j =>
              if j = i then Goroutine.build
              else s.routines j } := by
        simp only [Service.step, hr, hget, Service.goto]
      rw [hstep]
      exact hinv.quiet hi s.mgr s.polls _ hinv.call_eq (fun _ h => h) hold rfl
    | some c =>
      have hstep : s.step env id i =
          { mgr := s.mgr
            built := s.built
            polls := s.polls
            routines := fun j =>
              if j = i then Goroutine.done (Ret.value c)
              else s.routines j } := by
        simp only [Service.step, hr, hget, Service.goto]
      rw [hstep]
      have hprod := hinv.cached c hget
      refine hinv.move hi s.mgr s.built [] s.polls _ (List.append_nil _).symm hinv.call_eq
        hinv.cached ?_ ?_ ?_ ?_
      · intro c' hc'
        cases hc'
      · intro c' hc'
        cases hc'
        exact hprod
      · intro _
        obtain ⟨k, hk, _⟩ := hprod
        omega
      · rw [hold]; simp [Goroutine.past]
  | build =>
    have hold : (s.routines i).past = 0 := by rw [hr]; rfl
    have hcall := hinv.call_eq
    cases hf : env.newCryptFromFiles s.built.length call with
    | error err =>
      have hstep : s.step env id i =
          { mgr := s.mgr
            built := s.built ++ [call]
            polls := s.polls
            routines := fun j =>
              if j = i then Goroutine.done (Ret.panic ("unable to create a crypt: " ++ err))
              else s.routines j } := by
        simp only [Service.step, hr, hcall, hf, Service.goto]
      rw [hstep]
      refine hinv.move hi s.mgr (s.built ++ [call]) [call] s.polls _ rfl hinv.call_eq
        ?_ ?_ ?_ ?_ ?_
      · intro c hc
        exact (hinv.cached c hc).mono [call]
      · intro c' hc'
        cases hc'
      · intro c' hc'
        cases hc'
      · intro _
        simp
      · rw [hold]; simp [Goroutine.past]
    | ok c =>
      have hstep : s.step env id i =
          { mgr := s.mgr
            built := s.built ++ [call]
            polls := s.polls
            routines := fun j =>
              if j = i then Goroutine.store c
              else s.routines j } := by
        simp only [Service.step, hr, hcall, hf, Service.goto]
      rw [hstep]
      refine hinv.move hi s.mgr (s.built ++ [call]) [call] s.polls _ rfl hinv.call_eq
        ?_ ?_ ?_ ?_ ?_
      · intro c' hc'
        exact (hinv.cached c' hc').mono [call]
      · intro c' hc'
        cases hc'
        exact Produced.last hf
      · intro c' hc'
        cases hc'
      · intro _
        simp
      · rw [hold]; simp [Goroutine.past]
  | store c =>
    have hold : (s.routines i).past = 1 := by rw [hr]; rfl
    have hstep : s.step env id i =
        { mgr := { s.mgr with cache := s.mgr.cache.assign id c }
          built := s.built
          polls := s.polls
          routines := fun j =>
            if j = i then Goroutine.done (Ret.value c)
            else s.routines j } := by
      simp only [Service.step, hr, Service.goto]
    rw [hstep]
    have hprod := hinv.stored i c hr
    refine hinv.move hi _ s.built [] s.polls _ (List.append_nil _).symm hinv.call_eq
      ?_ ?_ ?_ ?_ ?_
    · intro c' hc'
      simp only [Manager.get, GoMap.index_assign_self, Option.some.injEq] at hc'
      rw [← hc']
      exact hprod
    · intro c' hc'
      cases hc'
    · intro c' hc'
      cases hc'
      exact hprod
    · intro _
      exact hinv.built_pos i hold
    · rw [hold]; simp [Goroutine.past]
  | done r =>
    have hstep : s.step env id i = s := by
      simp only [Service.step, hr]
    rw [hstep]
    exact hinv

theorem Service.Inv.run {env : Env Crypt} {call : FactoryCall} {id : String} {N : Nat}
    (schedule : List Nat) (hN : ∀ i ∈ schedule, i < N) (s : Service Crypt)
    (hinv : Service.Inv env call id N s) :
    Service.Inv env call id N (s.run env id schedule) := by
  induction schedule generalizing s with
  | nil => exact hinv
  | cons i rest ih =>
    have hi : i < N := hN i (List.mem_cons_self i rest)
    have hrest : ∀ j ∈ rest, j < N := fun j hj => hN j (List.mem_cons_of_mem i hj)
    exact ih hrest (s.step env id i) (hinv.step hi)

theorem Service.Inv.start (env : Env Crypt) (m : Manager Crypt) (id : String) (N : Nat)
    (hmiss : m.get id = none) :
    Service.Inv env (m.factoryCall id) id N (Service.start m) where
  call_eq := rfl
  cached := by
    intro c hc
    simp only [Service.start] at hc
    rw [hmiss] at hc
    cases hc
  stored := by
    intro i c hc
    simp [Service.start] at hc
  returned := by
    intro i c hc
    simp [Service.start] at hc
  built_pos := by
    intro i hi
    simp [Service.start, Goroutine.past] at hi
  idle := by
    intro i _
    rfl
  count := by
    simp [Service.start]

theorem Service.step_other (env : Env Crypt) (id : String) (s : Service Crypt) (i j : Nat)
    (h : j ≠ i) : (s.step env id i).routines j = s.routines j := by
  cases hr : s.routines i with
  | fwCheck => cases hfw : s.mgr.fw <;> simp [Service.step, hr, hfw, Service.goto, h]
  | doGet => cases hget : s.mgr.get id <;> simp [Service.step, hr, hget, Service.goto, h]
  | build =>
    cases hf : env.newCryptFromFiles s.built.length (s.mgr.factoryCall id) <;>
      simp [Service.step, hr, hf, Service.goto, h]
  | _ => simp [Service.step, hr, Service.goto, h]

theorem Service.step_remaining (env : Env Crypt) (id : String) (s : Service Crypt) (i : Nat) :
    ((s.step env id i).routines i).remaining ≤ (s.routines i).remaining - 1 := by
  cases hr : s.routines i with
  | fwCheck =>
    cases hfw : s.mgr.fw <;> simp [Service.step, hr, hfw, Service.goto, Goroutine.remaining]
  | doGet =>
    cases hget : s.mgr.get id <;>
      simp [Service.step, hr, hget, Service.goto, Goroutine.remaining]
  | build =>
    cases hf : env.newCryptFromFiles s.built.length (s.mgr.factoryCall id) <;>
      simp [Service.step, hr, hf, Service.goto, Goroutine.remaining]
  | poll =>
    cases ht : env.wasTriggered s.polls <;>
      simp [Service.step, hr, ht, Service.goto, Goroutine.remaining]
  | lenCheck =>
    by_cases hl : s.mgr.cache.len = 0 <;>
      simp [Service.step, hr, hl, Service.goto, Goroutine.remaining]
  | _ => simp [Service.step, hr, Service.goto, Goroutine.remaining]

theorem Service.run_remaining (env : Env Crypt) (id : String) (schedule : List Nat)
    (s : Service Crypt) (i : Nat) :
    ((s.run env id schedule).routines i).remaining
      ≤ (s.routines i).remaining - schedule.count i := by
  induction schedule generalizing s with
  | nil => simp [Service.run]
  | cons j rest ih =>
    have h := ih (s.step env id j)
    simp only [Service.run, List.foldl_cons] at h ⊢
    by_cases hji : j = i
    · subst hji
      have hs := Service.step_remaining env id s j
      simp only [List.count_cons_self]
      omega
    · have hs := Service.step_other env id s j i (Ne.symm hji)
      rw [hs] at h
      have hc : List.count i (j :: rest) = List.count i rest := by
        rw [List.count_cons_of_ne (Ne.symm hji)]
      omega

theorem Goroutine.finished_of_remaining (g : Goroutine Crypt) (h : g.remaining = 0) :
    g.finished = true := by
  cases g <;> simp [Goroutine.remaining] at h
  rfl

/-- A goroutine that runs alone does what the sequential `GetOrCreate` does: eight steps of
goroutine `i` from the entry of the function end in the manager, the factory calls and the
result of `GetOrCreate`, for the factory and the watcher answer found at that point. -/
theorem Service.run_alone (env : Env Crypt) (id : String) (s : Service Crypt) (i : Nat)
    (hr : s.routines i = Goroutine.fwCheck) :
    (s.run env id (List.replicate 8 i)).mgr
      = (s.mgr.GetOrCreate (env.newCryptFromFiles s.built.length)
          (env.wasTriggered s.polls) id).mgr ∧
    (s.run env id (List.replicate 8 i)).built
      = s.built ++ (s.mgr.GetOrCreate (env.newCryptFromFiles s.built.length)
          (env.wasTriggered s.polls) id).built ∧
    (s.run env id (List.replicate 8 i)).routines i
      = Goroutine.done (s.mgr.GetOrCreate (env.newCryptFromFiles s.built.length)
          (env.wasTriggered s.polls) id).ret := by
  obtain ⟨⟨cache, fw, cfg⟩, built, polls, routines⟩ := s
  simp only at hr
  rw [Manager.GetOrCreate_eq]
  cases fw <;> cases ht : env.wasTriggered polls <;> cases cache with
  | nil =>
    cases hf : env.newCryptFromFiles built.length
        { privateKeyPaths := [cfg.PrivateKeyPath], publicKeyPath := cfg.PublicKeyPath,
          encryptionContext := id } <;>
      simp [Service.run, Service.step, Service.goto, List.replicate, hr, ht, hf,
        Manager.atLookup, Manager.get, Manager.reset, Manager.factoryCall, GoMap.index,
        GoMap.len]
  | cons e rest =>
    cases hg : GoMap.index (e :: rest) id <;>
    cases hf : env.newCryptFromFiles built.length
        { privateKeyPaths := [cfg.PrivateKeyPath], publicKeyPath := cfg.PublicKeyPath,
          encryptionContext := id } <;>
      simp [Service.run, Service.step, Service.goto, List.replicate, hr, ht, hf, hg,
        Manager.atLookup, Manager.get, Manager.reset, Manager.factoryCall, GoMap.index_nil,
        GoMap.len]

/-- C7, as stated, fails: two goroutines call `GetOrCreate("paas-a")` on a manager that has
no entry for "paas-a"; both look the identity up before either has stored a handle, so both
call the factory, and they return different handles (1 and 2). -/
theorem concurrent_GetOrCreate_not_single_flight :
    raceManager.get "paas-a" = none ∧
    ((Service.start raceManager).run raceEnv "paas-a" raceSchedule).built.length = 2 ∧
    ((Service.start raceManager).run raceEnv "paas-a" raceSchedule).routines 0
      = Goroutine.done (Ret.value 1) ∧
    ((Service.start raceManager).run raceEnv "paas-a" raceSchedule).routines 1
      = Goroutine.done (Ret.value 2) := by
  decide

/-- C7, amended: goroutines `0, ..., N-1` call `GetOrCreate(id)` concurrently on a manager
that has no entry for `id`.  Whatever the interleaving, the factory is called at most `N`
times, and at least once as soon as one of the calls is over (so exactly once for `N = 1`);
every handle that a call returns was given by one of these factory calls, made with the
configured key paths and `id`; and a goroutine that has been given eight steps is over.
The calls need not return the same handle. -/
theorem concurrent_GetOrCreate_builds (env : Env Crypt) (m : Manager Crypt) (id : String)
    (N : Nat) (schedule : List Nat) (hmiss : m.get id = none)
    (hN : ∀ i ∈ schedule, i < N) :
    ((Service.start m).run env id schedule).built.length ≤ N ∧
    (∀ i, (((Service.start m).run env id schedule).routines i).finished = true →
      1 ≤ ((Service.start m).run env id schedule).built.length) ∧
    (∀ i c, ((Service.start m).run env id schedule).routines i = Goroutine.done (Ret.value c) →
      Produced env
        { privateKeyPaths := [m.cfg.PrivateKeyPath], publicKeyPath := m.cfg.PublicKeyPath,
          encryptionContext := id }
        ((Service.start m).run env id schedule).built c) ∧
    (∀ i, 8 ≤ schedule.count i →
      (((Service.start m).run env id schedule).routines i).finished = true) := by
  have hinv := Service.Inv.run schedule hN (Service.start m) (Service.Inv.start env m id N hmiss)
  refine ⟨?_, ?_, ?_, ?_⟩
  · have hsum : ∑ i in Finset.range N,
        (((Service.start m).run env id schedule).routines i).past ≤ N := by
      have := Finset.sum_le_card_nsmul (Finset.range N)
        (fun i => (((Service.start m).run env id schedule).routines i).past) 1
        (fun i _ => Goroutine.past_le_one _)
      simpa using this
    exact le_trans hinv.count hsum
  · intro i hfin
    apply hinv.built_pos i
    cases hg : ((Service.start m).run env id schedule).routines i <;>
      simp [hg, Goroutine.finished] at hfin
    rfl
  · intro i c hc
    exact hinv.returned i c hc
  · intro i hcount
    apply Goroutine.finished_of_remaining
    have h := Service.run_remaining env id schedule (Service.start m) i
    have h8 : ((Service.start m).routines i).remaining = 8 := rfl
    omega

/-- The two racing goroutines: two factory calls, not more. -/
theorem concurrent_GetOrCreate_builds_witness :
    raceManager.get "paas-a" = none ∧ (∀ i ∈ raceSchedule, i < 2) ∧
    ((Service.start raceManager).run raceEnv "paas-a" raceSchedule).built.length ≤ 2 :=
  ⟨by decide, by decide,
    (concurrent_GetOrCreate_builds raceEnv raceManager "paas-a" 2 raceSchedule (by decide)
      (by decide)).1⟩

end Concurrency

end PaasWebservice
